import Mathlib

/-!
Shallow embedding of the `orbit` ml-service (sketch → 3D mesh conversion
pipeline) and proofs about its job lifecycle, validation, sketch analysis and
demo mesh synthesis.

Source files embedded:
- `ml-service/app/main.py` : job registry (`conversion_status` dict), the
  `/convert`, `/convert/{id}/status`, `/convert/{id}/download` endpoints and
  the `process_conversion` background task.
- `ml-service/app/services/file_handler.py` : upload validation.
- `ml-service/app/services/sketch2mesh_service.py` : demo-mode dispatch.
- `ml-service/app/services/demo_mesh_generator.py` : sketch statistics and
  the car / chair mesh recipes.

External effects (PIL image decoding, the filesystem, trimesh export success)
are modelled as explicit parameters of the embedded functions.
-/

namespace Orbit

/-! ## Job data model (main.py, `conversion_status` entries) -/

/-- Job status strings stored in `conversion_status[mesh_id]["status"]`. -/
inductive JobStatus
  | processing
  | completed
  | failed
deriving DecidableEq, Repr

/-- The string representation used by the python service for a status. -/
def JobStatus.str : JobStatus → String
  | .processing => "processing"
  | .completed => "completed"
  | .failed => "failed"

/-- One entry of the `conversion_status` dict:
`{"status": ..., "progress": ..., "error": ...}`. -/
structure Job where
  status : JobStatus
  progress : Nat
  error : Option String
deriving DecidableEq, Repr

/-- A job is terminal when its status is `completed` or `failed`. -/
def Job.isTerminal (j : Job) : Bool :=
  j.status = JobStatus.completed || j.status = JobStatus.failed

/-- The in-memory job registry: the module-level dict
`conversion_status : Dict[str, dict]` of main.py. -/
def Registry : Type := String → Option Job

/-- The empty registry (service start). -/
def emptyRegistry : Registry := fun _ => none

/-- The fresh record inserted at submission time (main.py lines 139-143):
`{"status": "processing", "progress": 0, "error": None}`. -/
def newJob : Job := ⟨JobStatus.processing, 0, none⟩

/-- Job creation at submission (main.py line 139):
`conversion_status[mesh_id] = {...}`.  A plain dict assignment: it overwrites
any record already stored under the same key. -/
def create_job (reg : Registry) (meshId : String) : Registry :=
  fun i => if i = meshId then some newJob else reg i

/-- Point mutation of one field group of a registry entry, as performed by
`conversion_status[mesh_id][...] = ...` inside the background task.  (In
python a missing key would raise `KeyError`; the task only runs for a key
created beforehand, so the absent case never occurs and is modelled as a
no-op.) -/
def Registry.updateJob (reg : Registry) (meshId : String) (f : Job → Job) : Registry :=
  fun i => if i = meshId then (reg i).map f else reg i

/-! ## Background orchestration (main.py `process_conversion`, lines 168-205) -/

/-- Result of awaiting a python call: either it returns a value or it raises
an exception carrying `str(e)`. -/
inductive StepResult (α : Type)
  | ok (a : α)
  | exn (msg : String)
deriving DecidableEq, Repr

/-- The sequence of registry updates emitted by `process_conversion` for one
job, in program order.  Adjacent dict assignments with no intervening `await`
(lines 194-195 resp. 198-199 and 204-205) execute atomically under the
cooperative single-threaded scheduler and form one registry transition.
- line 180: `progress = 10`
- line 184: `progress = 30`
- lines 194-195 (success): `status = "completed"; progress = 100`
- lines 198-199 (false return): `status = "failed"; error = "Conversion process failed"`
- lines 204-205 (exception `e`): `status = "failed"; error = str(e)` -/
def conversionUpdates (call : StepResult Bool) : List (Job → Job) :=
  [fun j => { j with progress := 10 },
   fun j => { j with progress := 30 }] ++
  match call with
  | .ok true => [fun j => { j with status := JobStatus.completed, progress := 100 }]
  | .ok false =>
      [fun j => { j with
          status := JobStatus.failed
          error := some "Conversion process failed" }]
  | .exn m => [fun j => { j with status := JobStatus.failed, error := some m }]

/-- The background task `process_conversion`, as a function of the registry,
the job id, and the outcome of the awaited
`service.convert_sketch_to_mesh(...)` call.  It is a total function: every
outcome (including a raised exception, caught at lines 202-205) ends in an
updated registry, never in a propagated exception. -/
def process_conversion (reg : Registry) (meshId : String) (call : StepResult Bool) : Registry :=
  (conversionUpdates call).foldl (fun r f => r.updateJob meshId f) reg

/-- The successive states of one job record while its orchestration task
runs: the created state followed by the state after each registry update. -/
def jobTrace (j : Job) (call : StepResult Bool) : List Job :=
  (conversionUpdates call).scanl (fun j f => f j) j

/-- The terminal record produced by the task for each outcome. -/
def finalJob : StepResult Bool → Job
  | .ok true => ⟨JobStatus.completed, 100, none⟩
  | .ok false => ⟨JobStatus.failed, 30, some "Conversion process failed"⟩
  | .exn m => ⟨JobStatus.failed, 30, some m⟩

/-! ## Status and download endpoints (main.py lines 208-268) -/

/-- Result of the status endpoint `get_conversion_status`. -/
inductive StatusResult
  | ok (status : JobStatus) (progress : Option Nat) (error : Option String)
  | httpError (code : Nat) (detail : String)
deriving DecidableEq, Repr

/-- `GET /convert/{mesh_id}/status` (main.py lines 208-228). -/
def get_conversion_status (reg : Registry) (meshId : String) : StatusResult :=
  match reg meshId with
  | none => .httpError 404 "Mesh ID not found"
  | some j => .ok j.status (some j.progress) j.error

/-- Result of the download endpoint: a `FileResponse` (path, media type,
download filename) or an `HTTPException`. -/
inductive DownloadResult
  | file (path : String) (mediaType : String) (filename : String)
  | httpError (code : Nat) (detail : String)
deriving DecidableEq, Repr

/-- `FileHandler.get_output_path` (file_handler.py lines 74-86). -/
def get_output_path (outputsDir meshId ext : String) : String :=
  outputsDir ++ "/" ++ meshId ++ "." ++ ext

/-- `GET /convert/{mesh_id}/download` (main.py lines 231-268).  The
filesystem is modelled by the predicate `fileExists`
(`FileHandler.file_exists`). -/
def download_mesh (reg : Registry) (fileExists : String → Bool)
    (outputsDir : String) (meshId : String) : DownloadResult :=
  match reg meshId with
  | none => .httpError 404 "Mesh ID not found"
  | some j =>
    if j.status ≠ JobStatus.completed then
      .httpError 400 ("Conversion not completed. Status: " ++ j.status.str)
    else if !(fileExists (get_output_path outputsDir meshId "glb")) then
      .httpError 404 "Mesh file not found"
    else
      .file (get_output_path outputsDir meshId "glb") "model/gltf-binary" (meshId ++ ".glb")

/-! ## Sketch analysis (demo_mesh_generator.py lines 36-57)

A decoded grayscale image (`np.array(Image.open(p).convert('L'))`) is
modelled as a list of rows of pixel intensities. -/

/-- A decoded grayscale raster: rows of 0-255 intensities. -/
abbrev Image : Type := List (List Nat)

/-- A pixel is ink (drawn) when its intensity is below 200
(`img_array < 200`). -/
def isInk (v : Nat) : Bool := v < 200

/-- `np.sum(img_array < 200)`: number of ink pixels. -/
def inkCount (img : Image) : Nat :=
  (img.map (fun row => (row.filter isInk).length)).sum

/-- `img_array.size`: total number of pixels. -/
def totalPixels (img : Image) : Nat :=
  (img.map List.length).sum

/-- Number of columns of the raster (rows all share this length for a
rectangular, decodable image). -/
def imgWidth (img : Image) : Nat := (img.headD []).length

/-- Row `i` contains at least one ink pixel
(`np.any(img_array < 200, axis=1)` at index `i`). -/
def rowHasInk (img : Image) (i : Nat) : Bool :=
  (img.getD i []).any isInk

/-- Column `j` contains at least one ink pixel
(`np.any(img_array < 200, axis=0)` at index `j`). -/
def colHasInk (img : Image) (j : Nat) : Bool :=
  img.any (fun row => isInk (row.getD j 255))

/-- Indices of rows containing ink, ascending (`np.where(rows)[0]`). -/
def inkRows (img : Image) : List Nat :=
  (List.range img.length).filter (rowHasInk img)

/-- Indices of columns containing ink, ascending (`np.where(cols)[0]`). -/
def inkCols (img : Image) : List Nat :=
  (List.range (imgWidth img)).filter (colHasInk img)

/-- The coarse statistics derived from a sketch (spec: SketchStatistics). -/
structure SketchStatistics where
  coverage : ℚ
  aspectRatio : ℚ
  width : Nat
  height : Nat
deriving DecidableEq, Repr

/-- The analysis block of `generate_mesh_from_sketch`
(demo_mesh_generator.py lines 39-55):
`coverage = non_white_pixels / total_pixels`;
`ymin, ymax = np.where(rows)[0][[0, -1]]`,
`xmin, xmax = np.where(cols)[0][[0, -1]]`,
`width = xmax - xmin`, `height = ymax - ymin`,
`aspect_ratio = width / max(height, 1)`,
with the no-ink default `aspect_ratio = 1.0, width = height = 0`. -/
def analyzeSketch (img : Image) : SketchStatistics :=
  let coverage : ℚ := (inkCount img : ℚ) / (totalPixels img : ℚ)
  let rs := inkRows img
  let cs := inkCols img
  if rs.isEmpty || cs.isEmpty then
    { coverage := coverage, aspectRatio := 1, width := 0, height := 0 }
  else
    let ymin := rs.headD 0
    let ymax := rs.getLastD 0
    let xmin := cs.headD 0
    let xmax := cs.getLastD 0
    { coverage := coverage
      aspectRatio := ((xmax - xmin : Nat) : ℚ) / ((max (ymax - ymin) 1 : Nat) : ℚ)
      width := xmax - xmin
      height := ymax - ymin }

/-! ## Upload validation and the submit endpoint
(file_handler.py lines 17-72, main.py lines 105-159) -/

/-- `MAX_UPLOAD_SIZE_MB` (config.py line 23). -/
def MAX_UPLOAD_SIZE_MB : Nat := 10

/-- An uploaded file: declared content type and raw bytes. -/
structure Upload where
  contentType : Option String
  content : List Nat
deriving DecidableEq, Repr

/-- Python `s.startswith(p)`, over the character sequence. -/
def strStartsWith (s p : String) : Bool :=
  s.data.take p.data.length == p.data

/-- Python `p in s` (substring containment), over the character sequence. -/
def strContains (s p : String) : Bool :=
  (List.range (s.data.length + 1)).any
    (fun i => (s.data.drop i).take p.data.length == p.data)

/-- `file.content_type and file.content_type.startswith('image/')`
(file_handler.py line 33). -/
def imageContentType (ct : Option String) : Bool :=
  match ct with
  | none => false
  | some s => strStartsWith s "image/"

/-- Upload extension selection (file_handler.py lines 50-56). -/
def uploadExt (ct : Option String) : String :=
  match ct with
  | none => "png"
  | some s =>
    if strContains s "jpeg" || strContains s "jpg" then "jpg"
    else if strContains s "png" then "png"
    else "png"

/-- Result of `FileHandler.save_upload`: the saved path keyed by a fresh
mesh id, or an `HTTPException`. -/
inductive UploadResult
  | saved (meshId : String) (path : String)
  | httpError (code : Nat) (detail : String)
deriving DecidableEq, Repr

/-- `FileHandler.save_upload` (file_handler.py lines 17-72).  The fresh
`uuid.uuid4()` is passed in as `meshId`.  Only the declared content type and
the byte count are validated; the bytes are written to disk without being
decoded. -/
def save_upload (u : Upload) (meshId uploadsDir : String) : UploadResult :=
  if !(imageContentType u.contentType) then
    .httpError 400 "Invalid file type. Must be an image."
  else if ((u.content.length : ℚ) / (1024 * 1024)) > (MAX_UPLOAD_SIZE_MB : ℚ) then
    .httpError 413 ("File too large. Maximum size is " ++ toString MAX_UPLOAD_SIZE_MB ++ "MB")
  else
    .saved meshId (uploadsDir ++ "/" ++ meshId ++ "." ++ uploadExt u.contentType)

/-- Result of the `/convert` endpoint: a `ConvertResponse` carrying the new
mesh id with status `processing`, or an `HTTPException`. -/
inductive ConvertResult
  | accepted (meshId : String)
  | httpError (code : Nat) (detail : String)
deriving DecidableEq, Repr

/-- `POST /convert` (main.py lines 105-159): readiness gate, category and
style validation, upload saving, registry entry creation, background task
scheduling.  Returns the response together with the registry after the
synchronous part of the request (the scheduled task has not yet run). -/
def convert_sketch (modelsReady : Bool) (reg : Registry) (u : Upload)
    (modelType sketchStyle meshId uploadsDir : String) : ConvertResult × Registry :=
  if !modelsReady then
    (.httpError 503 "Service not ready. Models are still initializing.", reg)
  else if !(["cars", "chairs"].contains modelType) then
    (.httpError 400 "model_type must be 'cars' or 'chairs'", reg)
  else if !(["suggestive", "fd", "handdrawn"].contains sketchStyle) then
    (.httpError 400 "sketch_style must be 'suggestive', 'fd', or 'handdrawn'", reg)
  else
    match save_upload u meshId uploadsDir with
    | .httpError c d => (.httpError c d, reg)
    | .saved mid _path => (.accepted mid, create_job reg mid)

/-! ## Demo-mode conversion success/failure
(sketch2mesh_service.py lines 17-59, demo_mesh_generator.py lines 15-77) -/

/-- The external image decoding boundary
(`Image.open(sketch_path).convert('L')` plus `np.array`): maps the uploaded
bytes to a grayscale raster, or fails for a corrupted / non-image blob. -/
def DecodeFn : Type := List Nat → Option Image

/-- A decode boundary under which every blob is undecodable; used to
instantiate corrupted-blob scenarios. -/
def failingDecode : DecodeFn := fun _ => none

/-- `DemoMeshGenerator.generate_mesh_from_sketch`
(demo_mesh_generator.py lines 15-77), success/failure view: the whole body
runs under `try`; a decode failure (`Image.open` raising) or an export
failure (`mesh.export` raising, modelled by `exportOk = false`) is caught and
turns into `False`; otherwise the analysis (which cannot raise) and the mesh
construction run and the function returns `True`.  The constructed geometry
itself is modelled separately by `demoMesh` below. -/
def generate_mesh_from_sketch (decode : DecodeFn) (sketchBytes : List Nat)
    (exportOk : Bool) : Bool :=
  match decode sketchBytes with
  | none => false
  | some _img => if exportOk then true else false

/-- `Sketch2MeshService.convert_sketch_to_mesh`
(sketch2mesh_service.py lines 17-59) with `USE_DEMO_MODE = True`: returns
`False` when the sketch file is missing, otherwise defers to the demo
generator; its own `try` turns any exception into `False`. -/
def convert_sketch_to_mesh (sketchExists : Bool) (decode : DecodeFn)
    (sketchBytes : List Nat) (exportOk : Bool) : Bool :=
  if !sketchExists then false
  else generate_mesh_from_sketch decode sketchBytes exportOk

/-! ## Demo mesh geometry (demo_mesh_generator.py lines 79-171)

A trimesh mesh is modelled by its vertex list over `ℝ × ℝ × ℝ`; the shape
recipes build exactly the vertex sets of the trimesh primitives used by the
source, and `apply_scale` multiplies every vertex uniformly. -/

/-- A vertex in 3-space. -/
abbrev V3 : Type := ℝ × ℝ × ℝ

/-- Uniform scaling of one vertex. -/
noncomputable def scalePoint (s : ℝ) (v : V3) : V3 :=
  (s * v.1, s * v.2.1, s * v.2.2)

/-- `mesh.apply_scale(s)`: uniform scaling of a whole mesh. -/
noncomputable def applyScale (s : ℝ) (m : List V3) : List V3 :=
  m.map (scalePoint s)

/-- `mesh.apply_translation(t)`. -/
noncomputable def translateMesh (t : V3) (m : List V3) : List V3 :=
  m.map (fun v => (v.1 + t.1, v.2.1 + t.2.1, v.2.2 + t.2.2))

/-- Vertices of `trimesh.creation.box(extents=[ex, ey, ez])`: an axis-aligned
box centred at the origin. -/
noncomputable def boxVerts (ex ey ez : ℝ) : List V3 :=
  [(-(ex / 2), -(ey / 2), -(ez / 2)), (-(ex / 2), -(ey / 2), ez / 2),
   (-(ex / 2), ey / 2, -(ez / 2)), (-(ex / 2), ey / 2, ez / 2),
   (ex / 2, -(ey / 2), -(ez / 2)), (ex / 2, -(ey / 2), ez / 2),
   (ex / 2, ey / 2, -(ez / 2)), (ex / 2, ey / 2, ez / 2)]

/-- Rim vertices of `trimesh.creation.cylinder(radius, height, sections)`:
a regular polygon of `sections` points extruded along the z axis, centred at
the origin. -/
noncomputable def cylinderVerts (r h : ℝ) (sections : Nat) : List V3 :=
  (List.range sections).flatMap (fun k =>
    let θ : ℝ := 2 * Real.pi * (k : ℝ) / (sections : ℝ)
    [(r * Real.cos θ, r * Real.sin θ, -(h / 2)),
     (r * Real.cos θ, r * Real.sin θ, h / 2)])

/-- `trimesh.transformations.rotation_matrix(θ, [1, 0, 0])` applied to a
vertex: rotation about the x axis. -/
noncomputable def rotX (θ : ℝ) (v : V3) : V3 :=
  (v.1, Real.cos θ * v.2.1 - Real.sin θ * v.2.2,
   Real.sin θ * v.2.1 + Real.cos θ * v.2.2)

/-- The coverage-derived global scale factor
(`scale_factor = 0.5 + (coverage * 1.5)`, demo_mesh_generator.py lines 125
and 168). -/
noncomputable def scaleFactor (coverage : ℝ) : ℝ := 0.5 + coverage * 1.5

/-- The car mesh before the final `apply_scale`
(`_generate_car_like_mesh`, demo_mesh_generator.py lines 79-122): body box,
roof box translated upward, and four wheel cylinders rotated a quarter turn
about the x axis and translated to the body corners, concatenated. -/
noncomputable def carCombined (aspectRatio : ℝ) : List V3 :=
  let scale_x := max 2 (aspectRatio * 1.5)
  let scale_y : ℝ := 0.8
  let scale_z : ℝ := 1.2
  let body := boxVerts scale_x scale_y scale_z
  let roof := translateMesh (0, 0, scale_z * 0.7)
    (boxVerts (scale_x * 0.6) scale_y (scale_z * 0.5))
  let wheel := (cylinderVerts 0.3 0.2 16).map (rotX (Real.pi / 2))
  let positions : List V3 :=
    [(scale_x * 0.4, scale_y * 0.6, -(scale_z * 0.3)),
     (scale_x * 0.4, -(scale_y * 0.6), -(scale_z * 0.3)),
     (-(scale_x * 0.4), scale_y * 0.6, -(scale_z * 0.3)),
     (-(scale_x * 0.4), -(scale_y * 0.6), -(scale_z * 0.3))]
  (body ++ roof) ++ positions.flatMap (fun p => translateMesh p wheel)

/-- `_generate_car_like_mesh` (demo_mesh_generator.py lines 79-128): the
combined car mesh scaled uniformly by the coverage-derived factor. -/
noncomputable def generate_car_like_mesh (coverage aspectRatio : ℝ) : List V3 :=
  applyScale (scaleFactor coverage) (carCombined aspectRatio)

/-- The chair mesh before the final `apply_scale`
(`_generate_chair_like_mesh`, demo_mesh_generator.py lines 130-165): seat
box, backrest box and four vertical leg cylinders, concatenated.  It uses
none of the sketch statistics. -/
noncomputable def chairCombined : List V3 :=
  let seat := translateMesh (0, 0, 1) (boxVerts 1.5 1.5 0.2)
  let backrest := translateMesh (0, -0.7, 1.8) (boxVerts 1.5 0.2 1.5)
  let leg := cylinderVerts 0.08 1 12
  let positions : List V3 :=
    [(0.6, 0.6, 0.5), (0.6, -0.6, 0.5), (-0.6, 0.6, 0.5), (-0.6, -0.6, 0.5)]
  (seat ++ backrest) ++ positions.flatMap (fun p => translateMesh p leg)

/-- `_generate_chair_like_mesh` (demo_mesh_generator.py lines 130-171). -/
noncomputable def generate_chair_like_mesh (coverage : ℝ) : List V3 :=
  applyScale (scaleFactor coverage) chairCombined

/-- The mesh built by `generate_mesh_from_sketch` from the computed
statistics (demo_mesh_generator.py lines 59-67): car recipe for
`model_type == "cars"`, chair recipe otherwise. -/
noncomputable def demoMesh (modelType : String) (s : SketchStatistics) : List V3 :=
  if modelType = "cars" then
    generate_car_like_mesh (s.coverage : ℝ) (s.aspectRatio : ℝ)
  else
    generate_chair_like_mesh (s.coverage : ℝ)

/-! ### Bounding box volume, used to compare mesh sizes -/

/-- Largest element of a list of reals (0 for the empty list). -/
noncomputable def listSup : List ℝ → ℝ
  | [] => 0
  | a :: l => l.foldl max a

/-- Smallest element of a list of reals (0 for the empty list). -/
noncomputable def listInf : List ℝ → ℝ
  | [] => 0
  | a :: l => l.foldl min a

/-- The x coordinates of a mesh. -/
noncomputable def xsOf (m : List V3) : List ℝ := m.map (fun v => v.1)

/-- The y coordinates of a mesh. -/
noncomputable def ysOf (m : List V3) : List ℝ := m.map (fun v => v.2.1)

/-- The z coordinates of a mesh. -/
noncomputable def zsOf (m : List V3) : List ℝ := m.map (fun v => v.2.2)

/-- Volume of the axis-aligned bounding box of a mesh. -/
noncomputable def boundingVolume (m : List V3) : ℝ :=
  (listSup (xsOf m) - listInf (xsOf m)) *
  (listSup (ysOf m) - listInf (ysOf m)) *
  (listSup (zsOf m) - listInf (zsOf m))

/-! ## Shared lemmas -/

/-- Folding key-scoped updates over the registry acts on the stored record
exactly as folding the update functions over that record. -/
theorem foldl_updateJob_get (l : List (Job → Job)) :
    ∀ (reg : Registry) (meshId : String) (j0 : Job), reg meshId = some j0 →
      (l.foldl (fun r f => r.updateJob meshId f) reg) meshId =
        some (l.foldl (fun j f => f j) j0) := by
  induction l with
  | nil => intro reg meshId j0 h; simpa using h
  | cons f t ih =>
    intro reg meshId j0 h
    have hstep : (reg.updateJob meshId f) meshId = some (f j0) := by
      simp [Registry.updateJob, h]
    simpa using ih _ meshId (f j0) hstep

/-! ## Claim theorems -/

/-- C1: for every submitted job, the registry updates performed by its
orchestration task are strictly ordered
`processing(progress=0) → progress=10 → progress=30 →
{completed(progress=100) | failed}`; progress is non-decreasing along the
successive states until the terminal one, and once a state is terminal the
status and error fields never change at any later point of the trace. -/
theorem conversion_updates_strictly_ordered (call : StepResult Bool) :
    jobTrace newJob call =
      [⟨JobStatus.processing, 0, none⟩, ⟨JobStatus.processing, 10, none⟩,
       ⟨JobStatus.processing, 30, none⟩, finalJob call] ∧
    List.Chain' (· ≤ ·) ((jobTrace newJob call).map Job.progress) ∧
    (finalJob call).isTerminal = true ∧
    (∀ i k : Nat, i ≤ k → k < (jobTrace newJob call).length →
      ((jobTrace newJob call).getD i newJob).isTerminal = true →
      ((jobTrace newJob call).getD k newJob).status =
          ((jobTrace newJob call).getD i newJob).status ∧
      ((jobTrace newJob call).getD k newJob).error =
          ((jobTrace newJob call).getD i newJob).error) := by
  have stability : ∀ (fj : Job), fj.isTerminal = true →
      jobTrace newJob call =
        [⟨JobStatus.processing, 0, none⟩, ⟨JobStatus.processing, 10, none⟩,
         ⟨JobStatus.processing, 30, none⟩, fj] →
      (∀ i k : Nat, i ≤ k → k < (jobTrace newJob call).length →
        ((jobTrace newJob call).getD i newJob).isTerminal = true →
        ((jobTrace newJob call).getD k newJob).status =
            ((jobTrace newJob call).getD i newJob).status ∧
        ((jobTrace newJob call).getD k newJob).error =
            ((jobTrace newJob call).getD i newJob).error) := by
    intro fj _ htr i k hik hk ht
    rw [htr] at hk ht ⊢
    simp only [List.length_cons, List.length_nil] at hk
    interval_cases k <;> interval_cases i <;>
      simp_all [Job.isTerminal, List.getD]
  obtain (b | m) := call
  · cases b
    · refine ⟨rfl, ?_, rfl,
        stability ⟨JobStatus.failed, 30, some "Conversion process failed"⟩ rfl rfl⟩
      show List.Chain' (· ≤ ·) [0, 10, 30, 30]
      norm_num [List.chain'_cons]
    · refine ⟨rfl, ?_, rfl, stability ⟨JobStatus.completed, 100, none⟩ rfl rfl⟩
      show List.Chain' (· ≤ ·) [0, 10, 30, 100]
      norm_num [List.chain'_cons]
  · refine ⟨rfl, ?_, rfl, stability ⟨JobStatus.failed, 30, some m⟩ rfl rfl⟩
    show List.Chain' (· ≤ ·) [0, 10, 30, 30]
    norm_num [List.chain'_cons]

/-- Closed instance of C1 at the successful outcome. -/
theorem conversion_updates_strictly_ordered_witness :
    jobTrace newJob (.ok true) =
      [⟨JobStatus.processing, 0, none⟩, ⟨JobStatus.processing, 10, none⟩,
       ⟨JobStatus.processing, 30, none⟩, finalJob (.ok true)] :=
  (conversion_updates_strictly_ordered (.ok true)).1

/-- C9: every job record reachable through the public operations — the
record created at submission and every state the orchestration task takes it
through — has a non-`none` error field exactly when its status is `failed`;
completed jobs carry `error = none` and failed jobs carry an error string. -/
theorem error_iff_failed_invariant (call : StepResult Bool) (j : Job)
    (hj : j ∈ jobTrace newJob call) :
    j.error ≠ none ↔ j.status = JobStatus.failed := by
  obtain (b | m) := call
  · cases b <;>
      (simp only [jobTrace, conversionUpdates, List.scanl, List.mem_cons,
        List.not_mem_nil, or_false] at hj
       rcases hj with h | h | h | h <;> subst h <;> simp [newJob])
  · simp only [jobTrace, conversionUpdates, List.scanl, List.mem_cons,
      List.not_mem_nil, or_false] at hj
    rcases hj with h | h | h | h <;> subst h <;> simp [newJob]

/-- Closed instance of C9: the just-created record on the success path. -/
theorem error_iff_failed_invariant_witness :
    newJob.error ≠ none ↔ newJob.status = JobStatus.failed :=
  error_iff_failed_invariant (.ok true) newJob (by decide)

/-- C10: when a job fails, the terminal transition writes only the status and
error fields: progress keeps the last value it held while processing (30,
reached just before the conversion call), is neither set to 100 nor reset,
and the status endpoint afterwards reports that retained progress value
alongside the error. -/
theorem failed_retains_progress (reg : Registry) (meshId : String)
    (h : reg meshId = some newJob) (m : String) :
    (process_conversion reg meshId (.ok false)) meshId
        = some ⟨JobStatus.failed, 30, some "Conversion process failed"⟩ ∧
    (process_conversion reg meshId (.exn m)) meshId
        = some ⟨JobStatus.failed, 30, some m⟩ ∧
    get_conversion_status (process_conversion reg meshId (.ok false)) meshId
        = .ok JobStatus.failed (some 30) (some "Conversion process failed") ∧
    get_conversion_status (process_conversion reg meshId (.exn m)) meshId
        = .ok JobStatus.failed (some 30) (some m) ∧
    (jobTrace newJob (.ok false)).map Job.progress = [0, 10, 30, 30] ∧
    (jobTrace newJob (.exn m)).map Job.progress = [0, 10, 30, 30] := by
  have h1 := foldl_updateJob_get (conversionUpdates (.ok false)) reg meshId newJob h
  have h2 := foldl_updateJob_get (conversionUpdates (.exn m)) reg meshId newJob h
  have e1 : (process_conversion reg meshId (.ok false)) meshId
      = some ⟨JobStatus.failed, 30, some "Conversion process failed"⟩ := h1
  have e2 : (process_conversion reg meshId (.exn m)) meshId
      = some ⟨JobStatus.failed, 30, some m⟩ := h2
  refine ⟨e1, e2, ?_, ?_, rfl, rfl⟩
  · simp [get_conversion_status, e1]
  · simp [get_conversion_status, e2]

/-- Closed instance of C10 in a one-job registry. -/
theorem failed_retains_progress_witness :
    (process_conversion (create_job emptyRegistry "a") "a" (.ok false)) "a"
      = some ⟨JobStatus.failed, 30, some "Conversion process failed"⟩ :=
  (failed_retains_progress (create_job emptyRegistry "a") "a" (by decide) "boom").1

/-- C6: any exception raised by analysis or synthesis inside the demo
generator (decode failure, export failure), and any `False` return of the
conversion call, leads to the job being marked `failed` with a non-empty
descriptive message; an exception at the awaited call itself is caught at the
task boundary and recorded, and the task always ends in a terminal registry
state instead of propagating. -/
theorem failures_contained (reg : Registry) (meshId : String)
    (h : reg meshId = some newJob) (decode : DecodeFn) (sketchBytes : List Nat)
    (sketchExists exportOk : Bool) (m : String) :
    ((decode sketchBytes = none ∨ exportOk = false ∨
        convert_sketch_to_mesh sketchExists decode sketchBytes exportOk = false) →
      (process_conversion reg meshId
          (.ok (convert_sketch_to_mesh sketchExists decode sketchBytes exportOk))) meshId
        = some ⟨JobStatus.failed, 30, some "Conversion process failed"⟩ ∧
      "Conversion process failed" ≠ "") ∧
    (process_conversion reg meshId (.exn m)) meshId
        = some ⟨JobStatus.failed, 30, some m⟩ ∧
    (∀ call : StepResult Bool, ∃ jf,
      (process_conversion reg meshId call) meshId = some jf ∧ jf.isTerminal = true) := by
  refine ⟨?_, foldl_updateJob_get _ reg meshId newJob h, ?_⟩
  · intro hfail
    have hfalse : convert_sketch_to_mesh sketchExists decode sketchBytes exportOk = false := by
      rcases hfail with hd | he | hc
      · cases sketchExists <;>
          simp [convert_sketch_to_mesh, generate_mesh_from_sketch, hd]
      · subst he
        cases sketchExists <;>
          (simp only [convert_sketch_to_mesh, generate_mesh_from_sketch]
           cases decode sketchBytes <;> simp)
      · exact hc
    rw [hfalse]
    exact ⟨foldl_updateJob_get _ reg meshId newJob h, by decide⟩
  · intro call
    obtain (b | msg) := call
    · cases b
      · exact ⟨⟨JobStatus.failed, 30, some "Conversion process failed"⟩,
          foldl_updateJob_get _ reg meshId newJob h, rfl⟩
      · exact ⟨⟨JobStatus.completed, 100, none⟩,
          foldl_updateJob_get _ reg meshId newJob h, rfl⟩
    · exact ⟨⟨JobStatus.failed, 30, some msg⟩,
        foldl_updateJob_get _ reg meshId newJob h, rfl⟩

/-- Closed instance of C6: an undecodable sketch fails the job with the
descriptive message. -/
theorem failures_contained_witness :
    (process_conversion (create_job emptyRegistry "a") "a"
        (.ok (convert_sketch_to_mesh true failingDecode [0, 1, 2] true))) "a"
      = some ⟨JobStatus.failed, 30, some "Conversion process failed"⟩ ∧
    "Conversion process failed" ≠ "" :=
  (failures_contained (create_job emptyRegistry "a") "a" (by decide) failingDecode
    [0, 1, 2] true true "boom").1 (Or.inl rfl)

/-- C7: download returns the `{job id}.glb` artifact with the binary-3D-scene
media type exactly when the id is known, its status is `completed` and the
artifact file exists; an unknown id gives 404, a known but unfinished job
gives a 400 naming its current status, and a completed job whose file is
missing gives 404. -/
theorem download_gating (reg : Registry) (fe : String → Bool) (dir meshId : String) :
    (download_mesh reg fe dir meshId =
        .file (get_output_path dir meshId "glb") "model/gltf-binary" (meshId ++ ".glb")
      ↔ ∃ j, reg meshId = some j ∧ j.status = JobStatus.completed ∧
          fe (get_output_path dir meshId "glb") = true) ∧
    (reg meshId = none →
      download_mesh reg fe dir meshId = .httpError 404 "Mesh ID not found") ∧
    (∀ j, reg meshId = some j → j.status ≠ JobStatus.completed →
      download_mesh reg fe dir meshId =
        .httpError 400 ("Conversion not completed. Status: " ++ j.status.str)) ∧
    (∀ j, reg meshId = some j → j.status = JobStatus.completed →
      fe (get_output_path dir meshId "glb") = false →
      download_mesh reg fe dir meshId = .httpError 404 "Mesh file not found") := by
  rcases hreg : reg meshId with _ | j
  · have hdl : download_mesh reg fe dir meshId = .httpError 404 "Mesh ID not found" := by
      simp [download_mesh, hreg]
    refine ⟨?_, fun _ => hdl, ?_, ?_⟩
    · rw [hdl]
      constructor
      · intro habs; exact absurd habs (by simp)
      · rintro ⟨j', hj', _, _⟩; exact absurd hj' (by simp)
    · intro j' hj'; exact absurd hj' (by simp)
    · intro j' hj'; exact absurd hj' (by simp)
  · by_cases hst : j.status = JobStatus.completed
    · by_cases hfe : fe (get_output_path dir meshId "glb") = true
      · have hdl : download_mesh reg fe dir meshId =
            .file (get_output_path dir meshId "glb") "model/gltf-binary" (meshId ++ ".glb") := by
          simp [download_mesh, hreg, hst, hfe]
        refine ⟨⟨fun _ => ⟨j, rfl, hst, hfe⟩, fun _ => hdl⟩, ?_, ?_, ?_⟩
        · intro hnone; exact absurd hnone (by simp)
        · intro j' hj' hne
          injection hj' with e; subst e
          exact absurd hst hne
        · intro j' hj' _ hfalse
          injection hj' with e; subst e
          rw [hfe] at hfalse; exact absurd hfalse (by simp)
      · have hfe' : fe (get_output_path dir meshId "glb") = false := by
          revert hfe; cases fe (get_output_path dir meshId "glb") <;> simp
        have hdl : download_mesh reg fe dir meshId = .httpError 404 "Mesh file not found" := by
          simp [download_mesh, hreg, hst, hfe']
        refine ⟨?_, ?_, ?_, ?_⟩
        · rw [hdl]
          constructor
          · intro habs; exact absurd habs (by simp)
          · rintro ⟨j', hj', _, hfe2⟩
            rw [hfe'] at hfe2; exact absurd hfe2 (by simp)
        · intro hnone; exact absurd hnone (by simp)
        · intro j' hj' hne
          injection hj' with e; subst e
          exact absurd hst hne
        · intro j' hj' _ _; exact hdl
    · have hdl : download_mesh reg fe dir meshId =
          .httpError 400 ("Conversion not completed. Status: " ++ j.status.str) := by
        simp [download_mesh, hreg, hst]
      refine ⟨?_, ?_, ?_, ?_⟩
      · rw [hdl]
        constructor
        · intro habs; exact absurd habs (by simp)
        · rintro ⟨j', hj', hst', _⟩
          injection hj' with e; subst e
          exact absurd hst' hst
      · intro hnone; exact absurd hnone (by simp)
      · intro j' hj' _
        injection hj' with e; subst e
        exact hdl
      · intro j' hj' hst' _
        injection hj' with e; subst e
        exact absurd hst' hst

/-- Closed instance of C7: a completed one-job registry with the artifact
present serves the file. -/
theorem download_gating_witness :
    download_mesh (fun i => if i = "a" then some ⟨JobStatus.completed, 100, none⟩ else none)
        (fun _ => true) "outputs" "a"
      = .file (get_output_path "outputs" "a" "glb") "model/gltf-binary" ("a" ++ ".glb") :=
  (download_gating (fun i => if i = "a" then some ⟨JobStatus.completed, 100, none⟩ else none)
      (fun _ => true) "outputs" "a").1.mpr
    ⟨⟨JobStatus.completed, 100, none⟩, by decide, rfl, rfl⟩

/-- C2 counterexample: a blob that the decode boundary rejects, uploaded with
an image content type, is not rejected synchronously: the submission is
accepted and a job registry entry is created.  The decode failure can only
surface later, in the background task. -/
theorem undecodable_blob_accepted_cex :
    failingDecode [0, 1, 2] = none ∧
    (convert_sketch true emptyRegistry ⟨some "image/png", [0, 1, 2]⟩
        "cars" "suggestive" "m1" "uploads").1 = .accepted "m1" ∧
    (convert_sketch true emptyRegistry ⟨some "image/png", [0, 1, 2]⟩
        "cars" "suggestive" "m1" "uploads").2 "m1" = some newJob := by
  have himg : imageContentType (some "image/png") = true := by decide
  have hsaved : save_upload ⟨some "image/png", [0, 1, 2]⟩ "m1" "uploads"
      = .saved "m1" ("uploads" ++ "/" ++ "m1" ++ "." ++ uploadExt (some "image/png")) := by
    simp only [save_upload, himg]
    norm_num [MAX_UPLOAD_SIZE_MB]
  refine ⟨rfl, ?_, ?_⟩ <;> simp [convert_sketch, hsaved, create_job]

/-- C2 amended: the validation boundary checks only the declared content
type and the byte count; it never decodes the bytes.  A submission whose
content type is not an image type is rejected synchronously with no job
created; any upload with an image content type and admissible size —
decodable or not — is accepted and a job registry entry is created; for
undecodable bytes the decode failure surfaces asynchronously as the
background task marking the job `failed`. -/
theorem decode_validation_amended (reg : Registry) (u : Upload)
    (modelType sketchStyle meshId uploadsDir : String) (decode : DecodeFn) (exportOk : Bool)
    (hmt : ["cars", "chairs"].contains modelType = true)
    (hss : ["suggestive", "fd", "handdrawn"].contains sketchStyle = true) :
    (imageContentType u.contentType = false →
      convert_sketch true reg u modelType sketchStyle meshId uploadsDir
        = (.httpError 400 "Invalid file type. Must be an image.", reg)) ∧
    (imageContentType u.contentType = true →
      ¬ ((u.content.length : ℚ) / (1024 * 1024) > (MAX_UPLOAD_SIZE_MB : ℚ)) →
      convert_sketch true reg u modelType sketchStyle meshId uploadsDir
        = (.accepted meshId, create_job reg meshId) ∧
      (create_job reg meshId) meshId = some newJob) ∧
    (decode u.content = none →
      convert_sketch_to_mesh true decode u.content exportOk = false ∧
      (process_conversion (create_job reg meshId) meshId
          (.ok (convert_sketch_to_mesh true decode u.content exportOk))) meshId
        = some ⟨JobStatus.failed, 30, some "Conversion process failed"⟩) := by
  have hmt' : modelType = "cars" ∨ modelType = "chairs" := by simpa using hmt
  have hss' : sketchStyle = "suggestive" ∨ sketchStyle = "fd" ∨ sketchStyle = "handdrawn" := by
    simpa using hss
  refine ⟨?_, ?_, ?_⟩
  · intro himg
    have hsave : save_upload u meshId uploadsDir
        = .httpError 400 "Invalid file type. Must be an image." := by
      simp [save_upload, himg]
    rcases hmt' with h1 | h1 <;> rcases hss' with h2 | h2 | h2 <;>
      subst h1 <;> subst h2 <;> simp [convert_sketch, hsave]
  · intro himg hsize
    have hsaved : save_upload u meshId uploadsDir
        = .saved meshId (uploadsDir ++ "/" ++ meshId ++ "." ++ uploadExt u.contentType) := by
      simp [save_upload, himg, hsize]
    refine ⟨?_, by simp [create_job]⟩
    rcases hmt' with h1 | h1 <;> rcases hss' with h2 | h2 | h2 <;>
      subst h1 <;> subst h2 <;> simp [convert_sketch, hsaved]
  · intro hd
    have hfalse : convert_sketch_to_mesh true decode u.content exportOk = false := by
      simp [convert_sketch_to_mesh, generate_mesh_from_sketch, hd]
    refine ⟨hfalse, ?_⟩
    rw [hfalse]
    exact foldl_updateJob_get _ _ meshId newJob (by simp [create_job])

/-- Closed instance of the amended C2: an undecodable image-typed blob is
accepted, creates a job, and the job later fails. -/
theorem decode_validation_amended_witness :
    (convert_sketch true emptyRegistry ⟨some "image/png", [0, 1, 2]⟩
        "cars" "suggestive" "m1" "uploads"
      = (.accepted "m1", create_job emptyRegistry "m1") ∧
    (create_job emptyRegistry "m1") "m1" = some newJob) ∧
    (convert_sketch_to_mesh true failingDecode [0, 1, 2] true = false ∧
    (process_conversion (create_job emptyRegistry "m1") "m1"
        (.ok (convert_sketch_to_mesh true failingDecode [0, 1, 2] true))) "m1"
      = some ⟨JobStatus.failed, 30, some "Conversion process failed"⟩) :=
  let full := decode_validation_amended emptyRegistry ⟨some "image/png", [0, 1, 2]⟩
    "cars" "suggestive" "m1" "uploads" failingDecode true (by decide) (by decide)
  ⟨full.2.1 (by decide) (by norm_num [MAX_UPLOAD_SIZE_MB]), full.2.2 rfl⟩

/-- C8 counterexample: creating a job under an identifier that already holds
a (terminal) record silently overwrites the old record with the fresh one;
no duplicate-identifier failure occurs anywhere in the code. -/
theorem create_overwrites_cex :
    (create_job (fun i => if i = "a" then some ⟨JobStatus.completed, 100, none⟩ else none)
        "a") "a" = some newJob ∧
    some newJob ≠ some (⟨JobStatus.completed, 100, none⟩ : Job) := by
  refine ⟨?_, ?_⟩ <;> decide

/-- C8 amended: the registry create operation unconditionally assigns a
fresh record with `status = processing`, `progress = 0`, `error = none`
under the given identifier, leaving every other identifier unchanged; when
the identifier already exists the old record is silently overwritten —
duplicate avoidance rests solely on the uuid generation at upload time. -/
theorem create_job_overwrites_amended (reg : Registry) (meshId other : String)
    (hother : other ≠ meshId) :
    (create_job reg meshId) meshId = some newJob ∧
    newJob.status = JobStatus.processing ∧ newJob.progress = 0 ∧ newJob.error = none ∧
    (create_job reg meshId) other = reg other := by
  exact ⟨by simp [create_job], rfl, rfl, rfl, by simp [create_job, hother]⟩

/-- Closed instance of the amended C8. -/
theorem create_job_overwrites_amended_witness :
    (create_job emptyRegistry "a") "a" = some newJob ∧
    newJob.status = JobStatus.processing ∧ newJob.progress = 0 ∧ newJob.error = none ∧
    (create_job emptyRegistry "a") "b" = emptyRegistry "b" :=
  create_job_overwrites_amended emptyRegistry "a" "b" (by decide)

/-- The default head of a nonempty list is a member. -/
theorem headD_mem {l : List Nat} (h : l ≠ []) : l.headD 0 ∈ l := by
  cases l with
  | nil => exact absurd rfl h
  | cons a t => simp [List.headD]

/-- The default last element of a nonempty list is a member. -/
theorem getLastD_mem {l : List Nat} (h : l ≠ []) : l.getLastD 0 ∈ l := by
  induction l using List.reverseRecOn with
  | nil => exact absurd rfl h
  | append_singleton t a _ =>
    rw [List.getLastD_concat]
    exact List.mem_append_right t (by simp)

/-- In a strictly ascending list the head is a lower bound. -/
theorem pairwise_headD_le {l : List Nat} (h : l.Pairwise (· < ·)) {x : Nat}
    (hx : x ∈ l) : l.headD 0 ≤ x := by
  cases l with
  | nil => simp at hx
  | cons a t =>
    rcases List.mem_cons.mp hx with rfl | hxt
    · simp [List.headD]
    · have := (List.pairwise_cons.mp h).1 x hxt
      simp only [List.headD]
      omega

/-- In a strictly ascending list the last element is an upper bound. -/
theorem pairwise_le_getLastD {l : List Nat} (h : l.Pairwise (· < ·)) {x : Nat}
    (hx : x ∈ l) : x ≤ l.getLastD 0 := by
  induction l using List.reverseRecOn with
  | nil => simp at hx
  | append_singleton t a _ =>
    rw [List.getLastD_concat]
    rcases List.mem_append.mp hx with hxt | hxa
    · rcases List.pairwise_append.mp h with ⟨_, _, hcross⟩
      exact le_of_lt (hcross x hxt a (by simp))
    · have : x = a := by simpa using hxa
      omega

/-- C4: a decodable sketch with no pixel below the ink threshold yields the
default statistics `coverage = 0`, `aspectRatio = 1`, `width = 0`,
`height = 0`, and the analysis returns normally rather than failing. -/
theorem no_ink_default_stats (img : Image) (hpos : 0 < totalPixels img)
    (hnoink : ∀ row ∈ img, ∀ v ∈ row, ¬ v < 200) :
    analyzeSketch img = ⟨0, 1, 0, 0⟩ := by
  have hink : inkCount img = 0 := by
    apply List.sum_eq_zero
    intro x hx
    rcases List.mem_map.mp hx with ⟨row, hrowm, rfl⟩
    have hf : row.filter isInk = [] := by
      apply List.filter_eq_nil_iff.mpr
      intro v hv
      simpa [isInk] using hnoink row hrowm v hv
    simp [hf]
  have hrows : inkRows img = [] := by
    apply List.filter_eq_nil_iff.mpr
    intro i hi
    rw [List.mem_range] at hi
    intro hany
    rw [rowHasInk, List.any_eq_true] at hany
    obtain ⟨v, hv, hvink⟩ := hany
    have hmem : img.getD i [] ∈ img := by
      rw [List.getD_eq_getElem _ _ hi]
      exact List.getElem_mem hi
    exact hnoink _ hmem v hv (by simpa [isInk] using hvink)
  have hcov : (inkCount img : ℚ) / (totalPixels img : ℚ) = 0 := by
    rw [hink]
    simp
  simp [analyzeSketch, hrows, hcov]

/-- Closed instance of C4 on a 2×2 all-background image (including a pixel
at exactly the threshold value 200, which is not ink). -/
theorem no_ink_default_stats_witness :
    analyzeSketch [[255, 200], [255, 255]] = ⟨0, 1, 0, 0⟩ :=
  no_ink_default_stats [[255, 200], [255, 255]] (by decide) (by decide)

/-- C5 counterexample: a drawing occupying exactly one pixel column (the
1×1 image with a single ink pixel) gets `width = 0`, not `1`: the code
computes `xmax - xmin`, not the number of columns spanned. -/
theorem single_column_width_cex :
    (analyzeSketch [[0]]).width = 0 ∧ (analyzeSketch [[0]]).width ≠ 1 ∧
    inkCols [[0]] = [0] := by
  refine ⟨?_, ?_, ?_⟩ <;> decide

/-- C5 amended: for a sketch with at least one ink pixel, `width` and
`height` equal the differences `xmax - xmin` and `ymax - ymin` of the
extreme ink column and row indices of the tight bounding box (one less than
the number of columns and rows spanned — a single-column drawing has width
0), and `aspectRatio = width / max(height, 1)`. -/
theorem bounding_box_extents_amended (img : Image)
    (hrect : ∀ row ∈ img, row.length = imgWidth img)
    (hink : ∃ row ∈ img, ∃ v ∈ row, v < 200) :
    ∃ xmin xmax ymin ymax : Nat,
      colHasInk img xmin = true ∧ colHasInk img xmax = true ∧
      (∀ j, colHasInk img j = true → xmin ≤ j ∧ j ≤ xmax) ∧
      rowHasInk img ymin = true ∧ rowHasInk img ymax = true ∧
      (∀ i, rowHasInk img i = true → ymin ≤ i ∧ i ≤ ymax) ∧
      (analyzeSketch img).width = xmax - xmin ∧
      (analyzeSketch img).height = ymax - ymin ∧
      (analyzeSketch img).aspectRatio
        = ((analyzeSketch img).width : ℚ) / ((max (analyzeSketch img).height 1 : Nat) : ℚ) := by
  obtain ⟨row, hrow, v, hv, hvink⟩ := hink
  obtain ⟨i, hi, hieq⟩ := List.mem_iff_getElem.mp hrow
  obtain ⟨j, hj, hjeq⟩ := List.mem_iff_getElem.mp hv
  have hrowink : rowHasInk img i = true := by
    have hgd : img.getD i [] = row := by rw [List.getD_eq_getElem _ _ hi, hieq]
    simp only [rowHasInk, hgd, List.any_eq_true]
    exact ⟨v, hv, by simpa [isInk] using hvink⟩
  have hcolink : colHasInk img j = true := by
    rw [colHasInk, List.any_eq_true]
    refine ⟨row, hrow, ?_⟩
    rw [show row.getD j 255 = v from by rw [List.getD_eq_getElem _ _ hj, hjeq]]
    simpa [isInk] using hvink
  have hrs : i ∈ inkRows img :=
    List.mem_filter.mpr ⟨List.mem_range.mpr hi, hrowink⟩
  have hcs : j ∈ inkCols img := by
    refine List.mem_filter.mpr ⟨List.mem_range.mpr ?_, hcolink⟩
    calc j < row.length := hj
    _ = imgWidth img := hrect row hrow
  have hrsne : inkRows img ≠ [] := List.ne_nil_of_mem hrs
  have hcsne : inkCols img ≠ [] := List.ne_nil_of_mem hcs
  have hrp : (inkRows img).Pairwise (· < ·) := (List.pairwise_lt_range _).filter _
  have hcp : (inkCols img).Pairwise (· < ·) := (List.pairwise_lt_range _).filter _
  have hrowMem : ∀ i', rowHasInk img i' = true → i' ∈ inkRows img := by
    intro i' h'
    have hi' : i' < img.length := by
      by_contra hge
      push_neg at hge
      have hgd : img.getD i' [] = [] := List.getD_eq_default _ _ hge
      rw [rowHasInk, hgd] at h'
      simp at h'
    exact List.mem_filter.mpr ⟨List.mem_range.mpr hi', h'⟩
  have hcolMem : ∀ j', colHasInk img j' = true → j' ∈ inkCols img := by
    intro j' h'
    have hj' : j' < imgWidth img := by
      by_contra hge
      push_neg at hge
      rw [colHasInk, List.any_eq_true] at h'
      obtain ⟨r, hr, hink'⟩ := h'
      have hgd : r.getD j' 255 = 255 := by
        apply List.getD_eq_default
        rw [hrect r hr]
        omega
      rw [hgd] at hink'
      simp [isInk] at hink'
    exact List.mem_filter.mpr ⟨List.mem_range.mpr hj', h'⟩
  have h1 : (inkRows img).isEmpty = false := by
    cases he : inkRows img with
    | nil => exact absurd he hrsne
    | cons a t => simp
  have h2 : (inkCols img).isEmpty = false := by
    cases he : inkCols img with
    | nil => exact absurd he hcsne
    | cons a t => simp
  refine ⟨(inkCols img).headD 0, (inkCols img).getLastD 0,
          (inkRows img).headD 0, (inkRows img).getLastD 0,
          (List.mem_filter.mp (headD_mem hcsne)).2,
          (List.mem_filter.mp (getLastD_mem hcsne)).2,
          ?_,
          (List.mem_filter.mp (headD_mem hrsne)).2,
          (List.mem_filter.mp (getLastD_mem hrsne)).2,
          ?_, ?_, ?_, ?_⟩
  · intro j' h'
    exact ⟨pairwise_headD_le hcp (hcolMem j' h'), pairwise_le_getLastD hcp (hcolMem j' h')⟩
  · intro i' h'
    exact ⟨pairwise_headD_le hrp (hrowMem i' h'), pairwise_le_getLastD hrp (hrowMem i' h')⟩
  · simp [analyzeSketch, h1, h2]
  · simp [analyzeSketch, h1, h2]
  · simp [analyzeSketch, h1, h2]

/-- Closed instance of the amended C5 on the single-ink-pixel image. -/
theorem bounding_box_extents_amended_witness :
    ∃ xmin xmax ymin ymax : Nat,
      colHasInk [[0]] xmin = true ∧ colHasInk [[0]] xmax = true ∧
      (∀ j, colHasInk [[0]] j = true → xmin ≤ j ∧ j ≤ xmax) ∧
      rowHasInk [[0]] ymin = true ∧ rowHasInk [[0]] ymax = true ∧
      (∀ i, rowHasInk [[0]] i = true → ymin ≤ i ∧ i ≤ ymax) ∧
      (analyzeSketch [[0]]).width = xmax - xmin ∧
      (analyzeSketch [[0]]).height = ymax - ymin ∧
      (analyzeSketch [[0]]).aspectRatio
        = ((analyzeSketch [[0]]).width : ℚ) / ((max (analyzeSketch [[0]]).height 1 : Nat) : ℚ) :=
  bounding_box_extents_amended [[0]] (by decide) (by decide)

/-- The coverage statistic is the ink fraction in every branch of the
analysis. -/
theorem analyzeSketch_coverage (img : Image) :
    (analyzeSketch img).coverage = (inkCount img : ℚ) / (totalPixels img : ℚ) := by
  simp only [analyzeSketch]
  split <;> rfl

/-- Coverage is never negative. -/
theorem coverage_nonneg (img : Image) : 0 ≤ (analyzeSketch img).coverage := by
  rw [analyzeSketch_coverage]
  positivity

/-- Multiplying by a nonnegative scalar commutes with the running maximum. -/
theorem foldl_max_mul_nonneg {s : ℝ} (hs : 0 ≤ s) (l : List ℝ) :
    ∀ a, (l.map (fun x => s * x)).foldl max (s * a) = s * l.foldl max a := by
  induction l with
  | nil => intro a; simp
  | cons b t ih =>
    intro a
    simp only [List.map_cons, List.foldl_cons]
    rw [← mul_max_of_nonneg _ _ hs]
    exact ih (max a b)

/-- Multiplying by a nonnegative scalar commutes with the running minimum. -/
theorem foldl_min_mul_nonneg {s : ℝ} (hs : 0 ≤ s) (l : List ℝ) :
    ∀ a, (l.map (fun x => s * x)).foldl min (s * a) = s * l.foldl min a := by
  induction l with
  | nil => intro a; simp
  | cons b t ih =>
    intro a
    simp only [List.map_cons, List.foldl_cons]
    rw [← mul_min_of_nonneg _ _ hs]
    exact ih (min a b)

/-- `listSup` scales with a nonnegative scalar. -/
theorem listSup_map_mul {s : ℝ} (hs : 0 ≤ s) (l : List ℝ) :
    listSup (l.map (fun x => s * x)) = s * listSup l := by
  cases l with
  | nil => simp [listSup]
  | cons a t =>
    simp only [List.map_cons, listSup]
    exact foldl_max_mul_nonneg hs t a

/-- `listInf` scales with a nonnegative scalar. -/
theorem listInf_map_mul {s : ℝ} (hs : 0 ≤ s) (l : List ℝ) :
    listInf (l.map (fun x => s * x)) = s * listInf l := by
  cases l with
  | nil => simp [listInf]
  | cons a t =>
    simp only [List.map_cons, listInf]
    exact foldl_min_mul_nonneg hs t a

/-- The x coordinates of a uniformly scaled mesh. -/
theorem xsOf_applyScale (s : ℝ) (m : List V3) :
    xsOf (applyScale s m) = (xsOf m).map (fun x => s * x) := by
  simp [xsOf, applyScale, scalePoint, List.map_map, Function.comp]

/-- The y coordinates of a uniformly scaled mesh. -/
theorem ysOf_applyScale (s : ℝ) (m : List V3) :
    ysOf (applyScale s m) = (ysOf m).map (fun x => s * x) := by
  simp [ysOf, applyScale, scalePoint, List.map_map, Function.comp]

/-- The z coordinates of a uniformly scaled mesh. -/
theorem zsOf_applyScale (s : ℝ) (m : List V3) :
    zsOf (applyScale s m) = (zsOf m).map (fun x => s * x) := by
  simp [zsOf, applyScale, scalePoint, List.map_map, Function.comp]

/-- Uniform scaling by a nonnegative factor scales the bounding volume by
the cube of the factor. -/
theorem boundingVolume_applyScale {s : ℝ} (hs : 0 ≤ s) (m : List V3) :
    boundingVolume (applyScale s m) = s ^ 3 * boundingVolume m := by
  rw [boundingVolume, boundingVolume, xsOf_applyScale, ysOf_applyScale, zsOf_applyScale,
      listSup_map_mul hs, listSup_map_mul hs, listSup_map_mul hs,
      listInf_map_mul hs, listInf_map_mul hs, listInf_map_mul hs]
  ring

/-- The running maximum bounds the seed and every element from above. -/
theorem le_foldl_max (l : List ℝ) :
    ∀ b, b ≤ l.foldl max b ∧ ∀ x ∈ l, x ≤ l.foldl max b := by
  induction l with
  | nil => intro b; exact ⟨le_refl b, by simp⟩
  | cons c t ih =>
    intro b
    refine ⟨le_trans (le_max_left b c) (ih (max b c)).1, ?_⟩
    intro x hx
    rcases List.mem_cons.mp hx with rfl | hxt
    · exact le_trans (le_max_right b x) (ih (max b x)).1
    · exact (ih (max b c)).2 x hxt

/-- The running minimum bounds the seed and every element from below. -/
theorem foldl_min_le (l : List ℝ) :
    ∀ b, l.foldl min b ≤ b ∧ ∀ x ∈ l, l.foldl min b ≤ x := by
  induction l with
  | nil => intro b; exact ⟨le_refl b, by simp⟩
  | cons c t ih =>
    intro b
    refine ⟨le_trans (ih (min b c)).1 (min_le_left b c), ?_⟩
    intro x hx
    rcases List.mem_cons.mp hx with rfl | hxt
    · exact le_trans (ih (min b x)).1 (min_le_right b x)
    · exact (ih (min b c)).2 x hxt

/-- Every member is at most the list supremum. -/
theorem le_listSup {l : List ℝ} {x : ℝ} (hx : x ∈ l) : x ≤ listSup l := by
  cases l with
  | nil => simp at hx
  | cons a t =>
    rcases List.mem_cons.mp hx with rfl | hxt
    · exact (le_foldl_max t x).1
    · exact (le_foldl_max t a).2 x hxt

/-- The list infimum is at most every member. -/
theorem listInf_le {l : List ℝ} {x : ℝ} (hx : x ∈ l) : listInf l ≤ x := by
  cases l with
  | nil => simp at hx
  | cons a t =>
    rcases List.mem_cons.mp hx with rfl | hxt
    · exact (foldl_min_le t x).1
    · exact (foldl_min_le t a).2 x hxt

/-- The unscaled car mesh has positive bounding volume (witnessed by two
opposite body-box corners). -/
theorem carCombined_volume_pos (a : ℝ) : 0 < boundingVolume (carCombined a) := by
  have hmem1 : ((max 2 (a * 1.5) / 2, (0.8 : ℝ) / 2, (1.2 : ℝ) / 2) : V3)
      ∈ carCombined a := by
    simp [carCombined, boxVerts]
  have hmem2 : ((-(max 2 (a * 1.5) / 2), -((0.8 : ℝ) / 2), -((1.2 : ℝ) / 2)) : V3)
      ∈ carCombined a := by
    simp [carCombined, boxVerts]
  have hsx : (2 : ℝ) ≤ max 2 (a * 1.5) := le_max_left _ _
  have hx1 : max 2 (a * 1.5) / 2 ≤ listSup (xsOf (carCombined a)) :=
    le_listSup (List.mem_map_of_mem _ hmem1)
  have hx2 : listInf (xsOf (carCombined a)) ≤ -(max 2 (a * 1.5) / 2) :=
    listInf_le (List.mem_map_of_mem _ hmem2)
  have hy1 : (0.8 : ℝ) / 2 ≤ listSup (ysOf (carCombined a)) :=
    le_listSup (List.mem_map_of_mem _ hmem1)
  have hy2 : listInf (ysOf (carCombined a)) ≤ -((0.8 : ℝ) / 2) :=
    listInf_le (List.mem_map_of_mem _ hmem2)
  have hz1 : (1.2 : ℝ) / 2 ≤ listSup (zsOf (carCombined a)) :=
    le_listSup (List.mem_map_of_mem _ hmem1)
  have hz2 : listInf (zsOf (carCombined a)) ≤ -((1.2 : ℝ) / 2) :=
    listInf_le (List.mem_map_of_mem _ hmem2)
  have hX : 0 < listSup (xsOf (carCombined a)) - listInf (xsOf (carCombined a)) := by
    linarith
  have hY : 0 < listSup (ysOf (carCombined a)) - listInf (ysOf (carCombined a)) := by
    linarith
  have hZ : 0 < listSup (zsOf (carCombined a)) - listInf (zsOf (carCombined a)) := by
    linarith
  exact mul_pos (mul_pos hX hY) hZ

/-- The unscaled chair mesh has positive bounding volume (witnessed by two
opposite seat-box corners). -/
theorem chairCombined_volume_pos : 0 < boundingVolume chairCombined := by
  have hmem1 : (((1.5 : ℝ) / 2 + 0, (1.5 : ℝ) / 2 + 0, (0.2 : ℝ) / 2 + 1) : V3)
      ∈ chairCombined := by
    simp [chairCombined, translateMesh, boxVerts]
  have hmem2 : ((-((1.5 : ℝ) / 2) + 0, -((1.5 : ℝ) / 2) + 0, -((0.2 : ℝ) / 2) + 1) : V3)
      ∈ chairCombined := by
    simp [chairCombined, translateMesh, boxVerts]
  have hx1 : (1.5 : ℝ) / 2 + 0 ≤ listSup (xsOf chairCombined) :=
    le_listSup (List.mem_map_of_mem _ hmem1)
  have hx2 : listInf (xsOf chairCombined) ≤ -((1.5 : ℝ) / 2) + 0 :=
    listInf_le (List.mem_map_of_mem _ hmem2)
  have hy1 : (1.5 : ℝ) / 2 + 0 ≤ listSup (ysOf chairCombined) :=
    le_listSup (List.mem_map_of_mem _ hmem1)
  have hy2 : listInf (ysOf chairCombined) ≤ -((1.5 : ℝ) / 2) + 0 :=
    listInf_le (List.mem_map_of_mem _ hmem2)
  have hz1 : (0.2 : ℝ) / 2 + 1 ≤ listSup (zsOf chairCombined) :=
    le_listSup (List.mem_map_of_mem _ hmem1)
  have hz2 : listInf (zsOf chairCombined) ≤ -((0.2 : ℝ) / 2) + 1 :=
    listInf_le (List.mem_map_of_mem _ hmem2)
  have hX : 0 < listSup (xsOf chairCombined) - listInf (xsOf chairCombined) := by
    linarith
  have hY : 0 < listSup (ysOf chairCombined) - listInf (ysOf chairCombined) := by
    linarith
  have hZ : 0 < listSup (zsOf chairCombined) - listInf (zsOf chairCombined) := by
    linarith
  exact mul_pos (mul_pos hX hY) hZ

/-- The scale factor is positive for a nonnegative coverage. -/
theorem scaleFactor_pos {c : ℝ} (hc : 0 ≤ c) : 0 < scaleFactor c := by
  have : 0 ≤ c * 1.5 := mul_nonneg hc (by norm_num)
  simp only [scaleFactor]
  linarith

/-- The scale factor is strictly increasing in coverage. -/
theorem scaleFactor_lt {c1 c2 : ℝ} (h : c1 < c2) : scaleFactor c1 < scaleFactor c2 := by
  simp only [scaleFactor]
  linarith

/-- Strict bounding-volume monotonicity of the car recipe in coverage. -/
theorem car_volume_strict_mono {c1 c2 a : ℝ} (h0 : 0 ≤ c1) (h12 : c1 < c2) :
    boundingVolume (generate_car_like_mesh c1 a)
      < boundingVolume (generate_car_like_mesh c2 a) := by
  have h1 : 0 < scaleFactor c1 := scaleFactor_pos h0
  have h2 : 0 < scaleFactor c2 := scaleFactor_pos (le_trans h0 (le_of_lt h12))
  rw [generate_car_like_mesh, generate_car_like_mesh,
      boundingVolume_applyScale (le_of_lt h1), boundingVolume_applyScale (le_of_lt h2)]
  exact mul_lt_mul_of_pos_right
    (pow_lt_pow_left₀ (scaleFactor_lt h12) (le_of_lt h1) (by norm_num))
    (carCombined_volume_pos a)

/-- Strict bounding-volume monotonicity of the chair recipe in coverage. -/
theorem chair_volume_strict_mono {c1 c2 : ℝ} (h0 : 0 ≤ c1) (h12 : c1 < c2) :
    boundingVolume (generate_chair_like_mesh c1)
      < boundingVolume (generate_chair_like_mesh c2) := by
  have h1 : 0 < scaleFactor c1 := scaleFactor_pos h0
  have h2 : 0 < scaleFactor c2 := scaleFactor_pos (le_trans h0 (le_of_lt h12))
  rw [generate_chair_like_mesh, generate_chair_like_mesh,
      boundingVolume_applyScale (le_of_lt h1), boundingVolume_applyScale (le_of_lt h2)]
  exact mul_lt_mul_of_pos_right
    (pow_lt_pow_left₀ (scaleFactor_lt h12) (le_of_lt h1) (by norm_num))
    chairCombined_volume_pos

/-- C3: for both categories the finished mesh is the category recipe mesh
scaled uniformly by exactly `0.5 + coverage * 1.5`, where coverage is the
ink fraction of the analyzed sketch; consequently, for two decodable
sketches with equal aspect ratio and the same category, the one with the
strictly larger coverage produces a mesh with strictly larger bounding
volume. -/
theorem mesh_scale_factor_monotone (img1 img2 : Image) (modelType : String)
    (hcov : (analyzeSketch img1).coverage < (analyzeSketch img2).coverage)
    (hasp : (analyzeSketch img1).aspectRatio = (analyzeSketch img2).aspectRatio) :
    (∀ img : Image, (analyzeSketch img).coverage
        = (inkCount img : ℚ) / (totalPixels img : ℚ)) ∧
    (∀ c a : ℝ, generate_car_like_mesh c a = applyScale (0.5 + c * 1.5) (carCombined a)) ∧
    (∀ c : ℝ, generate_chair_like_mesh c = applyScale (0.5 + c * 1.5) chairCombined) ∧
    boundingVolume (demoMesh modelType (analyzeSketch img1))
      < boundingVolume (demoMesh modelType (analyzeSketch img2)) := by
  refine ⟨analyzeSketch_coverage, fun c a => rfl, fun c => rfl, ?_⟩
  have h0 : (0 : ℝ) ≤ ((analyzeSketch img1).coverage : ℝ) := by
    exact_mod_cast coverage_nonneg img1
  have h12 : ((analyzeSketch img1).coverage : ℝ) < ((analyzeSketch img2).coverage : ℝ) := by
    exact_mod_cast hcov
  by_cases hmt : modelType = "cars"
  · simp only [demoMesh, hmt, if_pos rfl]
    rw [hasp]
    exact car_volume_strict_mono h0 h12
  · simp only [demoMesh, hmt, if_neg hmt]
    exact chair_volume_strict_mono h0 h12

/-- Closed instance of C3: two 2×2 sketches with equal (degenerate) aspect
ratio and coverages 1/4 < 2/4, category cars. -/
theorem mesh_scale_factor_monotone_witness :
    boundingVolume (demoMesh "cars" (analyzeSketch [[0, 255], [255, 255]]))
      < boundingVolume (demoMesh "cars" (analyzeSketch [[0, 255], [0, 255]])) := by
  have hcov : (analyzeSketch [[0, 255], [255, 255]]).coverage
      < (analyzeSketch [[0, 255], [0, 255]]).coverage := by
    have hc1 : inkCount [[0, 255], [255, 255]] = 1 := by decide
    have hc2 : inkCount [[0, 255], [0, 255]] = 2 := by decide
    have ht1 : totalPixels [[0, 255], [255, 255]] = 4 := by decide
    have ht2 : totalPixels [[0, 255], [0, 255]] = 4 := by decide
    rw [analyzeSketch_coverage, analyzeSketch_coverage, hc1, hc2, ht1, ht2]
    norm_num
  exact (mesh_scale_factor_monotone [[0, 255], [255, 255]] [[0, 255], [0, 255]]
    "cars" hcov rfl).2.2.2

end Orbit
